import Mathlib

/-!
Verification of the yatry map core (src/yatry/utils/models/map.py and
src/yatry/utils/models/__init__.py) against its specification.

The map is a tree of locations with symmetric road fares. Python objects
with identity and in-place mutation are embedded as explicit state passing:
tree nodes live in a heap (a list indexed by node id), the Map object is a
record of that heap plus the location registry and the road registry, and
every Python exception becomes an explicit error value.

Tree (tree.py), SymmetricKeyDict (symm_dict.py), the route optimizer
(optim/route.py) and the Location enum (data/locations.py) are repository
modules not present under src/; they are modelled from the spec, as marked
on each such definition. Location is an opaque decidable-equality type.
Python floats carry only whole/rational literals in every property below,
so fares are embedded as rationals.
-/

namespace Yatry

/-- Error kinds of the spec (section 7). Python raises KeyError for a failed
dict lookup; the spec names a failed location-registry lookup
UnknownLocation and a failed fare lookup KeyNotFound. AttributeError models
a Python attribute access on a field the object does not declare. -/
inductive MapErr where
  | keyNotFound
  | unknownLocation
  | invalidTreeOperation
  | disconnectedNodes
  | attributeError
  deriving DecidableEq

instance {ε α : Type} [DecidableEq ε] [DecidableEq α] :
    DecidableEq (Except ε α) := fun x y =>
  match x, y with
  | .error a, .error b =>
    if h : a = b then isTrue (congrArg Except.error h)
    else isFalse (fun hc => h (Except.noConfusion hc id))
  | .error _, .ok _ => isFalse (fun hc => Except.noConfusion hc)
  | .ok _, .error _ => isFalse (fun hc => Except.noConfusion hc)
  | .ok a, .ok b =>
    if h : a = b then isTrue (congrArg Except.ok h)
    else isFalse (fun hc => h (Except.noConfusion hc id))

/-- One tree node of the heap: its stored Location value, an optional
parent node id and the ordered list of child node ids
(Tree holds value, parent link, ordered children — spec section 3). -/
structure Node (Loc : Type) where
  value : Loc
  parent : Option Nat
  children : List Nat
  deriving DecidableEq

/-- The Map object's state (map.py, Map.__init__): the heap of tree nodes
(node id = list index, modelling Python object identity), the id of the
root node (_root), the location registry _locations as an insertion-ordered
association list, and the road registry _roads as an association list over
ordered pairs looked up symmetrically. -/
structure MapState (Loc : Type) where
  nodes : List (Node Loc)
  root : Nat
  locations : List (Loc × Nat)
  roads : List ((Loc × Loc) × ℚ)
  deriving DecidableEq

variable {Loc : Type} [DecidableEq Loc] [Inhabited Loc]

/-- Python dict lookup self._locations[l]: first (unique) entry for key l. -/
def lookupLoc (m : MapState Loc) (l : Loc) : Option Nat :=
  (m.locations.find? (fun p => decide (p.1 = l))).map (fun p => p.2)

/-- l in self._locations (Python membership test on the registry). -/
def registered (m : MapState Loc) (l : Loc) : Bool :=
  (lookupLoc m l).isSome

/-- node.value of the heap node with id i (nodes always exist in states the
Map builds; the default is never reached there). -/
def nodeValue (m : MapState Loc) (i : Nat) : Loc :=
  ((m.nodes.get? i).map Node.value).getD default

/-- node.parent of the heap node with id i. -/
def nodeParent (m : MapState Loc) (i : Nat) : Option Nat :=
  (m.nodes.get? i).bind Node.parent

/-- node.children of the heap node with id i. -/
def nodeChildren (m : MapState Loc) (i : Nat) : List Nat :=
  ((m.nodes.get? i).map Node.children).getD []

/-- In-place update of the heap cell at index i. -/
def modifyIdx {α : Type} : List α → Nat → (α → α) → List α
  | [], _, _ => []
  | a :: as, 0, f => f a :: as
  | a :: as, n + 1, f => a :: modifyIdx as n f

/-- Modelled from the spec: Tree.add_child (tree.py is not under src/).
Spec section 4.1: attaches the node as a child of self, setting the node's
parent link to self, mutating both nodes. The no-existing-parent
precondition is unchecked in the source (spec sections 4.1 and 7 state the
source does not guard re-parenting), so no check is performed here. -/
def add_child (m : MapState Loc) (parentId childId : Nat) : MapState Loc :=
  let ns1 := modifyIdx m.nodes childId (fun n => { n with parent := some parentId })
  let ns2 := modifyIdx ns1 parentId (fun n => { n with children := n.children ++ [childId] })
  { m with nodes := ns2 }

/-- Modelled from the spec: the key test of SymmetricKeyDict (symm_dict.py
is not under src/). Spec section 4.2: two keys are equal exactly when equal
as a set of two elements, so an entry for the unordered pair is found under
either argument order. -/
def pairMatches (a b : Loc) (e : (Loc × Loc) × ℚ) : Bool :=
  (decide (e.1.1 = a) && decide (e.1.2 = b)) ||
    (decide (e.1.1 = b) && decide (e.1.2 = a))

/-- Modelled from the spec: SymmetricKeyDict.__setitem__. Spec section 4.2:
stores the value under the unordered pair; a prior entry in either order is
overwritten — last write wins. -/
def symmSet (rs : List ((Loc × Loc) × ℚ)) (a b : Loc) (v : ℚ) :
    List ((Loc × Loc) × ℚ) :=
  if rs.any (pairMatches a b) then
    rs.map (fun e => if pairMatches a b e then ((a, b), v) else e)
  else rs ++ [((a, b), v)]

/-- Modelled from the spec: SymmetricKeyDict.__getitem__. Spec section 4.2:
returns the value stored for the unordered pair regardless of argument
order; none models the KeyNotFound failure. -/
def symmGet (rs : List ((Loc × Loc) × ℚ)) (a b : Loc) : Option ℚ :=
  (rs.find? (pairMatches a b)).map (fun e => e.2)

/-- Map.register_location: if the location is not yet in _locations, create
a fresh tree node carrying it (no parent, no children) and store it;
otherwise do nothing. -/
def register_location (m : MapState Loc) (l : Loc) : MapState Loc :=
  if (lookupLoc m l).isSome then m
  else
    { m with
      nodes := m.nodes ++ [⟨l, none, []⟩],
      locations := m.locations ++ [(l, m.nodes.length)] }

/-- Map.__init__(root): empty registries, register the root location, then
point _root at its node. -/
def Map.init (root : Loc) : MapState Loc :=
  let m1 := register_location ⟨[], 0, [], []⟩ root
  { m1 with root := (lookupLoc m1 root).getD 0 }

/-- Map.add_road(loc_from, loc_to, fare): the source line
self._locations[loc_from].add_child(child=self._locations[loc_to]) performs
both registry lookups (each may raise, modelled by the error component)
before any mutation; on success it attaches loc_to's node under loc_from's
node and stores the fare in the symmetric road registry. The returned state
is the state at the point the call finished or raised. -/
def add_road (m : MapState Loc) (locFrom locTo : Loc) (fare : ℚ) :
    MapState Loc × Option MapErr :=
  match lookupLoc m locFrom with
  | none => (m, some .unknownLocation)
  | some i =>
    match lookupLoc m locTo with
    | none => (m, some .unknownLocation)
    | some j =>
      let m1 := add_child m i j
      ({ m1 with roads := symmSet m1.roads locFrom locTo fare }, none)

/-- Map.get_road_fare(loc_1, loc_2): symmetric lookup in _roads. -/
def get_road_fare (m : MapState Loc) (l1 l2 : Loc) : Except MapErr ℚ :=
  match symmGet m.roads l1 l2 with
  | some f => .ok f
  | none => .error .keyNotFound

/-- Modelled from the spec: Tree.path_to_root (tree.py is not under src/).
Spec section 4.1: the finite sequence of nodes from self up to and
including the root, following parent links until none remains. The walk is
bounded by the heap size, which covers every chain in the acyclic trees the
spec describes (section 3 tree invariant). -/
def pathToRoot (m : MapState Loc) : Nat → Nat → List Nat
  | 0, i => [i]
  | fuel + 1, i =>
    match nodeParent m i with
    | none => [i]
    | some p => i :: pathToRoot m fuel p

/-- Length of the longest shared front segment of two node chains,
comparing node ids (Python object identity). -/
def sharedLen : List Nat → List Nat → Nat
  | a :: as, b :: bs => if a = b then sharedLen as bs + 1 else 0
  | _, _ => 0

/-- Modelled from the spec: find_route of the route optimizer
(optim/route.py is not under src/). Spec section 4.3: compute both
ancestor chains up to the root; fail with DisconnectedNodes when the roots
differ; otherwise split at the lowest common ancestor — the deepest node
shared by both chains, found as the last node of the shared root-side
segment — and return start-side chain below the LCA, then the LCA, then
the end-side chain below the LCA reversed. -/
def find_route (m : MapState Loc) (s e : Nat) : Except MapErr (List Nat) :=
  let ps := pathToRoot m m.nodes.length s
  let pe := pathToRoot m m.nodes.length e
  if ps.getLast? ≠ pe.getLast? then .error .disconnectedNodes
  else
    let k := sharedLen ps.reverse pe.reverse
    .ok (ps.take (ps.length - k) ++ (pe.take (pe.length - k + 1)).reverse)

/-- Map._find_route(loc_start, loc_end): look both locations up in
_locations (a missing one raises — UnknownLocation), delegate to the route
optimizer on the two nodes, and map the node route back to the Location
values it stores, preserving order. -/
def map_find_route (m : MapState Loc) (locStart locEnd : Loc) :
    Except MapErr (List Loc) :=
  match lookupLoc m locStart with
  | none => .error .unknownLocation
  | some s =>
    match lookupLoc m locEnd with
    | none => .error .unknownLocation
    | some e =>
      match find_route m s e with
      | .error err => .error err
      | .ok route => .ok (route.map (nodeValue m))

/-- Map.get_fare_on_route(route): sum of self._roads[l1, l2] over the
zip of route[:-1] with route[1:], evaluated left to right; a missing pair
raises KeyNotFound. The empty zip sums to 0. -/
def get_fare_on_route (m : MapState Loc) (route : List Loc) :
    Except MapErr ℚ :=
  match (route.dropLast.zip route.tail).mapM
      (fun p => get_road_fare m p.1 p.2) with
  | .error err => .error err
  | .ok fares => .ok fares.sum

/-- Map.make_trip(loc_start, loc_end): the route from _find_route paired
with its fare from get_fare_on_route. -/
def make_trip (m : MapState Loc) (locStart locEnd : Loc) :
    Except MapErr (List Loc × ℚ) :=
  match map_find_route m locStart locEnd with
  | .error err => .error err
  | .ok route =>
    match get_fare_on_route m route with
    | .error err => .error err
    | .ok fare => .ok (route, fare)

/-- Passenger (models/__init__.py): a dataclass with fields name, src, dst
and t_dep_bracket. The two floats of the bracket are embedded as rationals;
they are never read by the map core. -/
structure Passenger (Loc : Type) where
  name : String
  src : Loc
  dst : Loc
  t_dep_bracket : ℚ × ℚ

/-- The attribute names map.py reads off a Passenger, together with the
declared dataclass fields. -/
inductive PassengerAttrName where
  | name
  | src
  | dst
  | t_dep_bracket
  | source
  | destination
  deriving DecidableEq

/-- Possible values of a Passenger attribute. -/
inductive PassengerAttrVal (Loc : Type) where
  | strVal (s : String)
  | locVal (l : Loc)
  | bracketVal (b : ℚ × ℚ)

/-- Python attribute lookup on a Passenger object: the dataclass in
src/src/yatry/utils/models/__init__.py declares exactly the fields name,
src, dst and t_dep_bracket; reading any other attribute raises
AttributeError, modelled by none. In particular source and destination are
not fields of Passenger. -/
def Passenger.getattr (p : Passenger Loc) :
    PassengerAttrName → Option (PassengerAttrVal Loc)
  | .name => some (.strVal p.name)
  | .src => some (.locVal p.src)
  | .dst => some (.locVal p.dst)
  | .t_dep_bracket => some (.bracketVal p.t_dep_bracket)
  | .source => none
  | .destination => none

/-- Map.get_passenger_route_fare(passenger): the source evaluates
passenger.source and passenger.destination and passes them to make_trip;
an attribute the object lacks raises AttributeError before make_trip
runs. -/
def get_passenger_route_fare (m : MapState Loc) (p : Passenger Loc) :
    Except MapErr (List Loc × ℚ) :=
  match p.getattr .source, p.getattr .destination with
  | some (.locVal s), some (.locVal d) => make_trip m s d
  | _, _ => .error .attributeError

/-- A Python Place object (models/__init__.py): the dataclass field name,
plus the object identity id(self), which its __hash__ returns. Two
distinct live objects have distinct ids. -/
structure Place where
  objId : Nat
  name : String
  deriving DecidableEq

/-- Dataclass-generated Place.__eq__: field-by-field comparison, and name
is the only field. -/
def placeEq (p q : Place) : Bool :=
  decide (p.name = q.name)

/-- Place.__hash__: returns id(self). -/
def placeHash (p : Place) : Nat :=
  p.objId

/-- Python dict key identification: a probe key hits a stored key exactly
when their hashes agree and the keys compare equal with __eq__. -/
def dictKeyMatches (k k2 : Place) : Bool :=
  decide (placeHash k = placeHash k2) && placeEq k k2

/-- Python dict store d[k] = v over Place keys: overwrite the entry whose
key the probe identifies with, else append a new entry. -/
def pyDictSet (d : List (Place × ℚ)) (k : Place) (v : ℚ) :
    List (Place × ℚ) :=
  if d.any (fun e => dictKeyMatches k e.1) then
    d.map (fun e => if dictKeyMatches k e.1 then (e.1, v) else e)
  else d ++ [(k, v)]

/-- Python dict read d[k] over Place keys. -/
def pyDictGet (d : List (Place × ℚ)) (k : Place) : Option ℚ :=
  (d.find? (fun e => dictKeyMatches k e.1)).map (fun e => e.2)

/-- Map states reachable by the public construction API: the constructor
followed by any sequence of register_location and add_road calls (spec
section 4.4 state machine). -/
inductive Reachable : MapState Loc → Prop where
  | init (root : Loc) : Reachable (Map.init root)
  | reg {m : MapState Loc} (l : Loc) :
      Reachable m → Reachable (register_location m l)
  | road {m : MapState Loc} (a b : Loc) (f : ℚ) :
      Reachable m → Reachable (add_road m a b f).1

/-- A parent-child tree edge of the heap: c listed among p's children, or
p recorded as c's parent. -/
def TreeEdge (m : MapState Loc) (p c : Nat) : Prop :=
  c ∈ nodeChildren m p ∨ nodeParent m c = some p

/-- Spec section 3 Map invariant, first half: every Location occurring as
an endpoint of a stored road is registered as a tree node. -/
def RoadEndpointsRegistered (m : MapState Loc) : Prop :=
  ∀ e ∈ m.roads, registered m e.1.1 = true ∧ registered m e.1.2 = true

/-- Spec section 3 Map invariant, second half: every parent-child tree
edge has a corresponding fare entry in the road registry. -/
def EdgesHaveFares (m : MapState Loc) : Prop :=
  ∀ p c, TreeEdge m p c →
    (symmGet m.roads (nodeValue m p) (nodeValue m c)).isSome = true

/-- Every tree edge connects nodes that exist in the heap. -/
def EdgesInRange (m : MapState Loc) : Prop :=
  ∀ p c, TreeEdge m p c → p < m.nodes.length ∧ c < m.nodes.length

/-- The registry points each location at an in-range node that stores it. -/
def LocsConsistent (m : MapState Loc) : Prop :=
  ∀ l i, lookupLoc m l = some i → i < m.nodes.length ∧ nodeValue m i = l

/-- Number of registry entries for a location. -/
def countLoc (m : MapState Loc) (l : Loc) : Nat :=
  (m.locations.filter (fun p => decide (p.1 = l))).length

/-- The registry holds at most one entry per location. -/
def LocsUnique (m : MapState Loc) : Prop :=
  ∀ l, countLoc m l ≤ 1

/-- The conjunction of the Map's internal invariants, preserved by every
construction step. -/
def MapInvariant (m : MapState Loc) : Prop :=
  LocsConsistent m ∧ LocsUnique m ∧ EdgesInRange m ∧
    RoadEndpointsRegistered m ∧ EdgesHaveFares m

/-- Concrete Passenger for the get_passenger_route_fare defect: src and dst
are both the root location. -/
def passengerC1 : Passenger ℕ :=
  ⟨"alice", 0, 0, (0, 0)⟩

/-- Concrete map for the re-parenting defect: locations 0 (root), 1, 2 are
registered and a road 0 → 1 with fare 10 is in place, so node 1 already
has a parent. -/
def mapC4 : MapState ℕ :=
  (add_road (register_location (register_location (Map.init 0) 1) 2) 0 1 10).1

/-- Concrete map with locations 0 (root) and 1 registered. -/
def mapReg01 : MapState ℕ :=
  register_location (Map.init 0) 1

/-- Concrete map: 0 (root) and 1 registered, road 0 → 1 with fare 5. -/
def mapRoad01 : MapState ℕ :=
  (add_road (register_location (Map.init 0) 1) 0 1 5).1

theorem pairMatches_self (a b : Loc) (v : ℚ) :
    pairMatches a b ((a, b), v) = true := by
  simp [pairMatches]

theorem pairMatches_comm (a b : Loc) (e : (Loc × Loc) × ℚ) :
    pairMatches b a e = pairMatches a b e := by
  simp only [pairMatches]
  exact Bool.or_comm _ _

theorem symmGet_comm (rs : List ((Loc × Loc) × ℚ)) (a b : Loc) :
    symmGet rs b a = symmGet rs a b := by
  have hf : pairMatches b a = @pairMatches Loc _ a b :=
    funext (fun e => pairMatches_comm a b e)
  rw [symmGet, symmGet, hf]

theorem find?_append_self (rs : List ((Loc × Loc) × ℚ)) (a b : Loc) (v : ℚ)
    (h : rs.any (pairMatches a b) = false) :
    (rs ++ [((a, b), v)]).find? (pairMatches a b) = some ((a, b), v) := by
  induction rs with
  | nil => simp [List.find?, pairMatches_self]
  | cons e rest ih =>
    simp only [List.any_cons, Bool.or_eq_false_iff] at h
    simp only [List.cons_append, List.find?_cons, h.1]
    exact ih h.2

theorem find?_map_replace (rs : List ((Loc × Loc) × ℚ)) (a b : Loc) (v : ℚ)
    (h : rs.any (pairMatches a b) = true) :
    (rs.map (fun e => if pairMatches a b e then ((a, b), v) else e)).find?
      (pairMatches a b) = some ((a, b), v) := by
  induction rs with
  | nil => simp at h
  | cons e rest ih =>
    by_cases he : pairMatches a b e = true
    · simp [List.find?_cons, he, pairMatches_self]
    · have he2 : pairMatches a b e = false := Bool.eq_false_iff.mpr he
      have h2 : rest.any (pairMatches a b) = true := by
        rw [List.any_cons, he2, Bool.false_or] at h
        exact h
      simp only [List.map_cons, he2, Bool.false_eq_true, if_false,
        List.find?_cons]
      exact ih h2

theorem symmGet_symmSet (rs : List ((Loc × Loc) × ℚ)) (a b : Loc) (v : ℚ) :
    symmGet (symmSet rs a b v) a b = some v := by
  unfold symmSet
  by_cases h : rs.any (pairMatches a b) = true
  · rw [if_pos h, symmGet, find?_map_replace rs a b v h]
    rfl
  · rw [if_neg h, symmGet,
      find?_append_self rs a b v (Bool.eq_false_iff.mpr h)]
    rfl

theorem symmGet_symmSet_swap (rs : List ((Loc × Loc) × ℚ)) (a b : Loc)
    (v : ℚ) : symmGet (symmSet rs a b v) b a = some v := by
  rw [symmGet_comm]
  exact symmGet_symmSet rs a b v

/-- C10: get_fare_on_route on the empty route returns 0 for every map,
performing no fare lookup — it cannot fail even when the road registry is
empty. -/
theorem C10_empty_route_fare_zero (m : MapState Loc) :
    get_fare_on_route m [] = .ok 0 :=
  rfl

/-- C9: add_road with an unregistered endpoint fails before mutating
anything: the state after the call is exactly the state before, and the
error is the failed registry lookup (UnknownLocation). -/
theorem C9_add_road_fails_before_mutation (m : MapState Loc) (a b : Loc)
    (f : ℚ) (h : registered m a = false ∨ registered m b = false) :
    (add_road m a b f).1 = m ∧
      (add_road m a b f).2 = some MapErr.unknownLocation := by
  rcases h with h | h
  · cases ha : lookupLoc m a with
    | none => simp [add_road, ha]
    | some i => rw [registered, ha] at h; simp at h
  · cases hb : lookupLoc m b with
    | none =>
      cases ha : lookupLoc m a with
      | none => simp [add_road, ha]
      | some i => simp [add_road, ha, hb]
    | some j => rw [registered, hb] at h; simp at h

theorem C9_witness :
    (add_road (Map.init (0 : ℕ)) 0 7 3).1 = Map.init 0 ∧
      (add_road (Map.init (0 : ℕ)) 0 7 3).2 = some MapErr.unknownLocation :=
  C9_add_road_fails_before_mutation (Map.init 0) 0 7 3 (Or.inr (by decide))

/-- C2: after add_road(A, B, f) on a map where A and B are registered, the
fare lookup returns f under both argument orders. -/
theorem C2_road_fare_symmetric (m : MapState Loc) (A B : Loc) (f : ℚ)
    (hA : registered m A = true) (hB : registered m B = true) :
    get_road_fare (add_road m A B f).1 A B = .ok f ∧
      get_road_fare (add_road m A B f).1 B A = .ok f := by
  rw [registered] at hA hB
  rcases Option.isSome_iff_exists.mp hA with ⟨i, hi⟩
  rcases Option.isSome_iff_exists.mp hB with ⟨j, hj⟩
  have hroads : (add_road m A B f).1.roads = symmSet m.roads A B f := by
    simp [add_road, hi, hj, add_child]
  constructor
  · rw [get_road_fare, hroads, symmGet_symmSet]
  · rw [get_road_fare, hroads, symmGet_symmSet_swap]

theorem C2_witness :
    get_road_fare (add_road mapReg01 0 1 7).1 0 1 = .ok 7 ∧
      get_road_fare (add_road mapReg01 0 1 7).1 1 0 = .ok 7 :=
  C2_road_fare_symmetric mapReg01 0 1 7 (by decide) (by decide)

theorem find_route_error_eq (m : MapState Loc) (s e : Nat)
    (err : MapErr) (h : find_route m s e = .error err) :
    err = MapErr.disconnectedNodes := by
  rw [find_route] at h
  split at h
  · exact (Except.error.inj h).symm
  · exact Except.noConfusion h

/-- C3: route finding fails with UnknownLocation exactly on unregistered
endpoints: if either endpoint is not registered the result is that error,
and with both endpoints registered that error cannot occur. -/
theorem C3_find_route_unknown_location (m : MapState Loc) (s e : Loc) :
    (registered m s = false ∨ registered m e = false →
      map_find_route m s e = .error MapErr.unknownLocation) ∧
    (registered m s = true → registered m e = true →
      map_find_route m s e ≠ .error MapErr.unknownLocation) := by
  constructor
  · intro h
    rcases h with h | h
    · cases hs : lookupLoc m s with
      | none => simp [map_find_route, hs]
      | some i => rw [registered, hs] at h; simp at h
    · cases he : lookupLoc m e with
      | none =>
        cases hs : lookupLoc m s with
        | none => simp [map_find_route, hs]
        | some i => simp [map_find_route, hs, he]
      | some j => rw [registered, he] at h; simp at h
  · intro hs he
    rw [registered] at hs he
    rcases Option.isSome_iff_exists.mp hs with ⟨i, hi⟩
    rcases Option.isSome_iff_exists.mp he with ⟨j, hj⟩
    rw [map_find_route, hi, hj]
    cases hr : find_route m i j with
    | error err =>
      have := find_route_error_eq m i j err hr
      subst this
      simp [hr]
    | ok route =>
      simp [hr]

theorem C3_witness :
    map_find_route mapReg01 5 0 = .error MapErr.unknownLocation ∧
      map_find_route mapReg01 0 0 ≠ .error MapErr.unknownLocation :=
  ⟨(C3_find_route_unknown_location mapReg01 5 0).1 (Or.inl (by decide)),
    (C3_find_route_unknown_location mapReg01 0 0).2 (by decide) (by decide)⟩

/-- C1: the code of get_passenger_route_fare reads passenger.source and
passenger.destination, attributes the Passenger dataclass does not declare
(its fields are src and dst), so the call raises AttributeError on every
passenger — here shown on a map and passenger for which
make_trip(src, dst) succeeds, contradicting the claimed equivalence. -/
theorem C1_passenger_attribute_bug :
    get_passenger_route_fare (Map.init (0 : ℕ)) passengerC1 =
        .error MapErr.attributeError ∧
      make_trip (Map.init (0 : ℕ)) passengerC1.src passengerC1.dst =
        .ok ([0], 0) := by
  constructor
  · rfl
  · decide

/-- C4: with node 1 already carrying parent 0 (road 0 → 1 in place),
add_road(2, 1, 20) does not fail with InvalidTreeOperation: it returns no
error, silently re-parents node 1 under node 2, and leaves node 1 listed
as a child of both node 0 and node 2 — the single-parent tree structure is
not preserved, contradicting the claim. -/
theorem C4_add_road_no_reparent_guard :
    (add_road mapC4 2 1 20).2 = none ∧
      nodeParent (add_road mapC4 2 1 20).1 1 = some 2 ∧
      1 ∈ nodeChildren (add_road mapC4 2 1 20).1 0 ∧
      1 ∈ nodeChildren (add_road mapC4 2 1 20).1 2 := by
  decide

/-- C8: two distinct Place objects (distinct identity, hence distinct ids)
with the same name compare equal under the dataclass __eq__ but hash
differently under the id-based __hash__, so a Python dict stores them as
two separate keys with two values. -/
theorem C8_place_identity_hash :
    placeEq ⟨0, "A"⟩ ⟨1, "A"⟩ = true ∧
      (⟨0, "A"⟩ : Place) ≠ ⟨1, "A"⟩ ∧
      placeHash ⟨0, "A"⟩ ≠ placeHash ⟨1, "A"⟩ ∧
      pyDictGet (pyDictSet (pyDictSet [] ⟨0, "A"⟩ 10) ⟨1, "A"⟩ 20)
          ⟨0, "A"⟩ = some 10 ∧
      pyDictGet (pyDictSet (pyDictSet [] ⟨0, "A"⟩ 10) ⟨1, "A"⟩ 20)
          ⟨1, "A"⟩ = some 20 := by
  decide

theorem modifyIdx_length {α : Type} (xs : List α) (i : Nat) (f : α → α) :
    (modifyIdx xs i f).length = xs.length := by
  induction xs generalizing i with
  | nil => rfl
  | cons a as ih =>
    cases i with
    | zero => rfl
    | succ n => simp [modifyIdx, ih]

theorem modifyIdx_get?_ne {α : Type} (xs : List α) (i j : Nat) (f : α → α)
    (h : j ≠ i) : (modifyIdx xs i f).get? j = xs.get? j := by
  induction xs generalizing i j with
  | nil => rfl
  | cons a as ih =>
    cases i with
    | zero =>
      cases j with
      | zero => exact absurd rfl h
      | succ k => rfl
    | succ n =>
      cases j with
      | zero => rfl
      | succ k =>
        show (modifyIdx as n f).get? k = as.get? k
        exact ih n k (fun hk => h (congrArg Nat.succ hk))

theorem modifyIdx_get?_self {α : Type} (xs : List α) (i : Nat) (f : α → α) :
    (modifyIdx xs i f).get? i = (xs.get? i).map f := by
  induction xs generalizing i with
  | nil => rfl
  | cons a as ih =>
    cases i with
    | zero => rfl
    | succ n =>
      show (modifyIdx as n f).get? n = (as.get? n).map f
      exact ih n

theorem add_child_nodes (m : MapState Loc) (p c : Nat) :
    (add_child m p c).nodes =
      modifyIdx (modifyIdx m.nodes c (fun n => { n with parent := some p }))
        p (fun n => { n with children := n.children ++ [c] }) :=
  rfl

theorem add_child_roads (m : MapState Loc) (p c : Nat) :
    (add_child m p c).roads = m.roads :=
  rfl

theorem add_child_locations (m : MapState Loc) (p c : Nat) :
    (add_child m p c).locations = m.locations :=
  rfl

theorem add_child_length (m : MapState Loc) (p c : Nat) :
    (add_child m p c).nodes.length = m.nodes.length := by
  rw [add_child_nodes, modifyIdx_length, modifyIdx_length]

theorem lookupLoc_add_child (m : MapState Loc) (p c : Nat) (l : Loc) :
    lookupLoc (add_child m p c) l = lookupLoc m l :=
  rfl

theorem nodeValue_add_child (m : MapState Loc) (p c i : Nat) :
    nodeValue (add_child m p c) i = nodeValue m i := by
  rw [nodeValue, nodeValue, add_child_nodes]
  by_cases hip : i = p
  · subst hip
    rw [modifyIdx_get?_self]
    by_cases hic : i = c
    · subst hic
      rw [modifyIdx_get?_self]
      cases m.nodes.get? i <;> rfl
    · rw [modifyIdx_get?_ne _ _ _ _ hic]
      cases m.nodes.get? i <;> rfl
  · rw [modifyIdx_get?_ne _ _ _ _ hip]
    by_cases hic : i = c
    · subst hic
      rw [modifyIdx_get?_self]
      cases m.nodes.get? i <;> rfl
    · rw [modifyIdx_get?_ne _ _ _ _ hic]

theorem nodeChildren_add_child_mem (m : MapState Loc) (p c i x : Nat)
    (h : x ∈ nodeChildren (add_child m p c) i) :
    x ∈ nodeChildren m i ∨ (i = p ∧ x = c) := by
  rw [nodeChildren, add_child_nodes] at h
  by_cases hip : i = p
  · subst hip
    rw [modifyIdx_get?_self] at h
    by_cases hic : i = c
    · subst hic
      rw [modifyIdx_get?_self] at h
      cases ho : m.nodes.get? i with
      | none => rw [ho] at h; simp at h
      | some n =>
        rw [ho] at h
        simp at h
        rcases h with h | h
        · exact Or.inl (by rw [nodeChildren, ho]; simpa using h)
        · exact Or.inr ⟨rfl, h⟩
    · rw [modifyIdx_get?_ne _ _ _ _ hic] at h
      cases ho : m.nodes.get? i with
      | none => rw [ho] at h; simp at h
      | some n =>
        rw [ho] at h
        simp at h
        rcases h with h | h
        · exact Or.inl (by rw [nodeChildren, ho]; simpa using h)
        · exact Or.inr ⟨rfl, h⟩
  · rw [modifyIdx_get?_ne _ _ _ _ hip] at h
    by_cases hic : i = c
    · subst hic
      rw [modifyIdx_get?_self] at h
      cases ho : m.nodes.get? i with
      | none => rw [ho] at h; simp at h
      | some n =>
        rw [ho] at h
        simp at h
        exact Or.inl (by rw [nodeChildren, ho]; simpa using h)
    · rw [modifyIdx_get?_ne _ _ _ _ hic] at h
      exact Or.inl (by rw [nodeChildren]; exact h)

theorem nodeParent_add_child_eq (m : MapState Loc) (p c i q : Nat)
    (h : nodeParent (add_child m p c) i = some q) :
    nodeParent m i = some q ∨ (i = c ∧ q = p) := by
  rw [nodeParent, add_child_nodes] at h
  by_cases hip : i = p
  · subst hip
    rw [modifyIdx_get?_self] at h
    by_cases hic : i = c
    · subst hic
      rw [modifyIdx_get?_self] at h
      cases ho : m.nodes.get? i with
      | none => rw [ho] at h; simp at h
      | some n =>
        rw [ho] at h
        simp at h
        exact Or.inr ⟨rfl, h.symm⟩
    · rw [modifyIdx_get?_ne _ _ _ _ hic] at h
      cases ho : m.nodes.get? i with
      | none => rw [ho] at h; simp at h
      | some n =>
        rw [ho] at h
        simp at h
        exact Or.inl (by rw [nodeParent, ho]; simpa using h)
  · rw [modifyIdx_get?_ne _ _ _ _ hip] at h
    by_cases hic : i = c
    · subst hic
      rw [modifyIdx_get?_self] at h
      cases ho : m.nodes.get? i with
      | none => rw [ho] at h; simp at h
      | some n =>
        rw [ho] at h
        simp at h
        exact Or.inr ⟨rfl, h.symm⟩
    · rw [modifyIdx_get?_ne _ _ _ _ hic] at h
      exact Or.inl (by rw [nodeParent]; exact h)

theorem treeEdge_add_child_cases (m : MapState Loc) (p c x y : Nat)
    (h : TreeEdge (add_child m p c) x y) :
    TreeEdge m x y ∨ (x = p ∧ y = c) := by
  rcases h with h | h
  · rcases nodeChildren_add_child_mem m p c x y h with h | h
    · exact Or.inl (Or.inl h)
    · exact Or.inr h
  · rcases nodeParent_add_child_eq m p c y x h with h | h
    · exact Or.inl (Or.inr h)
    · exact Or.inr ⟨h.2, h.1⟩

theorem pairMatches_trans (x y a b : Loc) (e : (Loc × Loc) × ℚ) (v : ℚ)
    (hxy : pairMatches x y e = true) (hab : pairMatches a b e = true) :
    pairMatches x y ((a, b), v) = true := by
  simp only [pairMatches, Bool.or_eq_true, Bool.and_eq_true,
    decide_eq_true_eq] at hxy hab ⊢
  rcases hxy with ⟨h1, h2⟩ | ⟨h1, h2⟩ <;> rcases hab with ⟨h3, h4⟩ | ⟨h3, h4⟩
  · exact Or.inl ⟨h3.symm.trans h1, h4.symm.trans h2⟩
  · exact Or.inr ⟨h4.symm.trans h2, h3.symm.trans h1⟩
  · exact Or.inr ⟨h3.symm.trans h1, h4.symm.trans h2⟩
  · exact Or.inl ⟨h4.symm.trans h2, h3.symm.trans h1⟩

theorem mem_symmSet (rs : List ((Loc × Loc) × ℚ)) (a b : Loc) (v : ℚ)
    (e : (Loc × Loc) × ℚ) (h : e ∈ symmSet rs a b v) :
    e ∈ rs ∨ e.1 = (a, b) := by
  rw [symmSet] at h
  by_cases hany : rs.any (pairMatches a b) = true
  · rw [if_pos hany] at h
    rcases List.mem_map.mp h with ⟨e2, he2, heq⟩
    by_cases hm : pairMatches a b e2 = true
    · rw [if_pos hm] at heq
      right
      rw [← heq]
    · rw [if_neg hm] at heq
      left
      rw [← heq]
      exact he2
  · rw [if_neg hany] at h
    rcases List.mem_append.mp h with h | h
    · exact Or.inl h
    · right
      rw [List.mem_singleton.mp h]

theorem symmGet_symmSet_isSome (rs : List ((Loc × Loc) × ℚ)) (a b x y : Loc)
    (v : ℚ) (h : (symmGet rs x y).isSome = true) :
    (symmGet (symmSet rs a b v) x y).isSome = true := by
  rw [symmGet] at h ⊢
  have h2 : (rs.find? (pairMatches x y)).isSome = true := by
    cases hf : rs.find? (pairMatches x y) with
    | none => rw [hf] at h; simp at h
    | some e => simp
  rcases List.find?_isSome.mp h2 with ⟨e, he, hm⟩
  have h3 : ((symmSet rs a b v).find? (pairMatches x y)).isSome = true := by
    apply List.find?_isSome.mpr
    rw [symmSet]
    by_cases hany : rs.any (pairMatches a b) = true
    · rw [if_pos hany]
      refine ⟨if pairMatches a b e then ((a, b), v) else e, ?_, ?_⟩
      · exact List.mem_map.mpr ⟨e, he, rfl⟩
      · by_cases hab : pairMatches a b e = true
        · rw [if_pos hab]
          exact pairMatches_trans x y a b e v hm hab
        · rw [if_neg hab]
          exact hm
    · rw [if_neg hany]
      exact ⟨e, List.mem_append_left _ he, hm⟩
  cases hf : (symmSet rs a b v).find? (pairMatches x y) with
  | none => rw [hf] at h3; simp at h3
  | some e2 => simp

theorem register_of_present (m : MapState Loc) (l : Loc)
    (h : (lookupLoc m l).isSome = true) : register_location m l = m := by
  rw [register_location, if_pos h]

theorem register_of_absent (m : MapState Loc) (l : Loc)
    (h : lookupLoc m l = none) :
    register_location m l =
      { m with
        nodes := m.nodes ++ [⟨l, none, []⟩],
        locations := m.locations ++ [(l, m.nodes.length)] } := by
  have hc : ¬((lookupLoc m l).isSome = true) := by rw [h]; simp
  rw [register_location, if_neg hc]

theorem register_absent_locations (m : MapState Loc) (l : Loc)
    (hn : lookupLoc m l = none) :
    (register_location m l).locations =
      m.locations ++ [(l, m.nodes.length)] := by
  rw [register_of_absent m l hn]

theorem register_absent_nodes (m : MapState Loc) (l : Loc)
    (hn : lookupLoc m l = none) :
    (register_location m l).nodes = m.nodes ++ [⟨l, none, []⟩] := by
  rw [register_of_absent m l hn]

theorem register_roads (m : MapState Loc) (l : Loc) :
    (register_location m l).roads = m.roads := by
  rw [register_location]
  by_cases hp : (lookupLoc m l).isSome = true
  · rw [if_pos hp]
  · rw [if_neg hp]

theorem find?_locs_none_of_lookup_none (m : MapState Loc) (l : Loc)
    (hn : lookupLoc m l = none) :
    m.locations.find? (fun p => decide (p.1 = l)) = none := by
  rw [lookupLoc] at hn
  cases hf : m.locations.find? (fun p => decide (p.1 = l)) with
  | none => rfl
  | some e => rw [hf] at hn; simp at hn

theorem find?_singleton_entry (l x : Loc) (N : Nat) :
    ([((l, N) : Loc × Nat)].find? (fun p => decide (p.1 = x))) =
      if l = x then some (l, N) else none := by
  by_cases h : l = x <;> simp [List.find?_cons, h]

theorem lookupLoc_register_absent_found (m : MapState Loc) (l x : Loc)
    (i : Nat) (hn : lookupLoc m l = none) (hf : lookupLoc m x = some i) :
    lookupLoc (register_location m l) x = some i := by
  rw [lookupLoc] at hf
  cases hff : m.locations.find? (fun p => decide (p.1 = x)) with
  | none => rw [hff] at hf; simp at hf
  | some e =>
    rw [hff] at hf
    rw [lookupLoc, register_absent_locations m l hn, List.find?_append, hff,
      Option.or_some]
    exact hf

theorem lookupLoc_register_absent_notfound (m : MapState Loc) (l x : Loc)
    (hn : lookupLoc m l = none) (hf : lookupLoc m x = none) :
    lookupLoc (register_location m l) x =
      if l = x then some m.nodes.length else none := by
  have hff : m.locations.find? (fun p => decide (p.1 = x)) = none :=
    find?_locs_none_of_lookup_none m x hf
  rw [lookupLoc, register_absent_locations m l hn, List.find?_append, hff,
    Option.none_or, find?_singleton_entry]
  by_cases h : l = x <;> simp [h]

theorem registered_register_mono (m : MapState Loc) (l x : Loc)
    (h : registered m x = true) :
    registered (register_location m l) x = true := by
  by_cases hp : (lookupLoc m l).isSome = true
  · rw [register_of_present m l hp]
    exact h
  · have hn : lookupLoc m l = none := Option.not_isSome_iff_eq_none.mp hp
    rw [registered] at h
    rcases Option.isSome_iff_exists.mp h with ⟨i, hi⟩
    rw [registered, lookupLoc_register_absent_found m l x i hn hi]
    rfl

theorem nodeValue_register_absent_lt (m : MapState Loc) (l : Loc) (i : Nat)
    (hn : lookupLoc m l = none) (hi : i < m.nodes.length) :
    nodeValue (register_location m l) i = nodeValue m i := by
  rw [nodeValue, nodeValue, register_absent_nodes m l hn,
    List.get?_append hi]

theorem nodeValue_register_absent_new (m : MapState Loc) (l : Loc)
    (hn : lookupLoc m l = none) :
    nodeValue (register_location m l) m.nodes.length = l := by
  rw [nodeValue, register_absent_nodes m l hn, List.get?_concat_length]
  rfl

theorem nodeChildren_register_absent_lt (m : MapState Loc) (l : Loc)
    (i : Nat) (hn : lookupLoc m l = none) (hi : i < m.nodes.length) :
    nodeChildren (register_location m l) i = nodeChildren m i := by
  rw [nodeChildren, nodeChildren, register_absent_nodes m l hn,
    List.get?_append hi]

theorem nodeChildren_register_absent_ge (m : MapState Loc) (l : Loc)
    (i : Nat) (hn : lookupLoc m l = none) (hi : m.nodes.length ≤ i) :
    nodeChildren (register_location m l) i = [] := by
  rw [nodeChildren, register_absent_nodes m l hn]
  rcases Nat.eq_or_lt_of_le hi with he | hlt
  · rw [← he, List.get?_concat_length]
    rfl
  · rw [List.get?_eq_none.mpr (by simp; omega)]
    rfl

theorem nodeParent_register_absent_lt (m : MapState Loc) (l : Loc)
    (i : Nat) (hn : lookupLoc m l = none) (hi : i < m.nodes.length) :
    nodeParent (register_location m l) i = nodeParent m i := by
  rw [nodeParent, nodeParent, register_absent_nodes m l hn,
    List.get?_append hi]

theorem nodeParent_register_absent_ge (m : MapState Loc) (l : Loc)
    (i : Nat) (hn : lookupLoc m l = none) (hi : m.nodes.length ≤ i) :
    nodeParent (register_location m l) i = none := by
  rw [nodeParent, register_absent_nodes m l hn]
  rcases Nat.eq_or_lt_of_le hi with he | hlt
  · rw [← he, List.get?_concat_length]
    rfl
  · rw [List.get?_eq_none.mpr (by simp; omega)]
    rfl

theorem treeEdge_register_cases (m : MapState Loc) (l : Loc) (p c : Nat)
    (h : TreeEdge (register_location m l) p c) : TreeEdge m p c := by
  by_cases hp : (lookupLoc m l).isSome = true
  · rwa [register_of_present m l hp] at h
  · have hn : lookupLoc m l = none := Option.not_isSome_iff_eq_none.mp hp
    rcases h with h | h
    · rcases Nat.lt_or_ge p m.nodes.length with hlt | hge
      · rw [nodeChildren_register_absent_lt m l p hn hlt] at h
        exact Or.inl h
      · rw [nodeChildren_register_absent_ge m l p hn hge] at h
        simp at h
    · rcases Nat.lt_or_ge c m.nodes.length with hlt | hge
      · rw [nodeParent_register_absent_lt m l c hn hlt] at h
        exact Or.inr h
      · rw [nodeParent_register_absent_ge m l c hn hge] at h
        simp at h

theorem mapInvariant_empty :
    MapInvariant (⟨[], 0, [], []⟩ : MapState Loc) := by
  refine ⟨?_, ?_, ?_, ?_, ?_⟩
  · intro l i h
    simp [lookupLoc] at h
  · intro l
    simp [countLoc]
  · intro p c h
    rcases h with h | h
    · simp [nodeChildren] at h
    · simp [nodeParent] at h
  · intro e he
    simp [RoadEndpointsRegistered] at he
  · intro p c h
    rcases h with h | h
    · simp [nodeChildren] at h
    · simp [nodeParent] at h

theorem mapInvariant_register (m : MapState Loc) (l : Loc)
    (h : MapInvariant m) : MapInvariant (register_location m l) := by
  obtain ⟨hc, hu, hir, hre, hef⟩ := h
  by_cases hp : (lookupLoc m l).isSome = true
  · rw [register_of_present m l hp]
    exact ⟨hc, hu, hir, hre, hef⟩
  · have hn : lookupLoc m l = none := Option.not_isSome_iff_eq_none.mp hp
    refine ⟨?_, ?_, ?_, ?_, ?_⟩
    · intro x i hx
      cases hf : lookupLoc m x with
      | some i0 =>
        rw [lookupLoc_register_absent_found m l x i0 hn hf] at hx
        obtain rfl : i0 = i := Option.some.inj hx
        obtain ⟨h1, h2⟩ := hc x i0 hf
        constructor
        · rw [register_absent_nodes m l hn, List.length_append]
          omega
        · rw [nodeValue_register_absent_lt m l i0 hn h1]
          exact h2
      | none =>
        rw [lookupLoc_register_absent_notfound m l x hn hf] at hx
        by_cases hlx : l = x
        · rw [if_pos hlx] at hx
          obtain rfl : m.nodes.length = i := Option.some.inj hx
          subst hlx
          constructor
          · rw [register_absent_nodes m l hn, List.length_append]
            simp
          · exact nodeValue_register_absent_new m l hn
        · rw [if_neg hlx] at hx
          exact absurd hx (by simp)
    · intro x
      rw [countLoc, register_absent_locations m l hn, List.filter_append,
        List.length_append]
      by_cases hlx : l = x
      · subst hlx
        have h0 : m.locations.filter (fun p => decide (p.1 = l)) = [] := by
          rw [List.filter_eq_nil_iff]
          intro e he
          have := List.find?_eq_none.mp
            (find?_locs_none_of_lookup_none m l hn) e he
          simpa using this
        rw [h0]
        simp [List.filter]
      · have h1 :
            ([((l, m.nodes.length) : Loc × Nat)].filter
              (fun p => decide (p.1 = x))) = [] := by
          simp [List.filter, hlx]
        rw [h1]
        have := hu x
        rw [countLoc] at this
        simpa using this
    · intro p c hedge
      have hold := treeEdge_register_cases m l p c hedge
      obtain ⟨h1, h2⟩ := hir p c hold
      rw [register_absent_nodes m l hn, List.length_append]
      constructor <;> omega
    · intro e he
      rw [register_roads m l] at he
      obtain ⟨h1, h2⟩ := hre e he
      exact ⟨registered_register_mono m l _ h1,
        registered_register_mono m l _ h2⟩
    · intro p c hedge
      have hold := treeEdge_register_cases m l p c hedge
      obtain ⟨h1, h2⟩ := hir p c hold
      rw [nodeValue_register_absent_lt m l p hn h1,
        nodeValue_register_absent_lt m l c hn h2, register_roads m l]
      exact hef p c hold

theorem add_road_dest (m : MapState Loc) (a b : Loc) (f : ℚ) (i j : Nat)
    (hi : lookupLoc m a = some i) (hj : lookupLoc m b = some j) :
    (add_road m a b f).1 =
      { add_child m i j with roads := symmSet m.roads a b f } := by
  simp [add_road, hi, hj, add_child_roads]

theorem add_road_fail_left (m : MapState Loc) (a b : Loc) (f : ℚ)
    (hi : lookupLoc m a = none) : (add_road m a b f).1 = m := by
  simp [add_road, hi]

theorem add_road_fail_right (m : MapState Loc) (a b : Loc) (f : ℚ) (i : Nat)
    (hi : lookupLoc m a = some i) (hj : lookupLoc m b = none) :
    (add_road m a b f).1 = m := by
  simp [add_road, hi, hj]

theorem mapInvariant_add_road (m : MapState Loc) (a b : Loc) (f : ℚ)
    (h : MapInvariant m) : MapInvariant (add_road m a b f).1 := by
  obtain ⟨hc, hu, hir, hre, hef⟩ := h
  cases hi : lookupLoc m a with
  | none =>
    rw [add_road_fail_left m a b f hi]
    exact ⟨hc, hu, hir, hre, hef⟩
  | some i =>
    cases hj : lookupLoc m b with
    | none =>
      rw [add_road_fail_right m a b f i hi hj]
      exact ⟨hc, hu, hir, hre, hef⟩
    | some j =>
      rw [add_road_dest m a b f i j hi hj]
      have hlen :
          ({ add_child m i j with
              roads := symmSet m.roads a b f } : MapState Loc).nodes.length =
            m.nodes.length := add_child_length m i j
      refine ⟨?_, ?_, ?_, ?_, ?_⟩
      · intro x k hk
        have hk2 : lookupLoc m x = some k := hk
        obtain ⟨h1, h2⟩ := hc x k hk2
        refine ⟨by rw [hlen]; exact h1, ?_⟩
        have hv :
            nodeValue ({ add_child m i j with
              roads := symmSet m.roads a b f } : MapState Loc) k =
            nodeValue m k := nodeValue_add_child m i j k
        rw [hv]
        exact h2
      · intro x
        have he : countLoc ({ add_child m i j with
            roads := symmSet m.roads a b f } : MapState Loc) x =
            countLoc m x := rfl
        rw [he]
        exact hu x
      · intro p c hedge
        have hedge2 : TreeEdge (add_child m i j) p c := hedge
        rcases treeEdge_add_child_cases m i j p c hedge2 with hold | ⟨rfl, rfl⟩
        · obtain ⟨h1, h2⟩ := hir p c hold
          rw [hlen]
          exact ⟨h1, h2⟩
        · obtain ⟨h1, _⟩ := hc a p hi
          obtain ⟨h2, _⟩ := hc b c hj
          rw [hlen]
          exact ⟨h1, h2⟩
      · intro e he
        have he2 : e ∈ symmSet m.roads a b f := he
        rcases mem_symmSet m.roads a b f e he2 with hin | hkey
        · obtain ⟨h1, h2⟩ := hre e hin
          exact ⟨h1, h2⟩
        · have ha : registered m a = true := by
            rw [registered, hi]
            rfl
          have hb : registered m b = true := by
            rw [registered, hj]
            rfl
          rw [hkey]
          exact ⟨ha, hb⟩
      · intro p c hedge
        have hedge2 : TreeEdge (add_child m i j) p c := hedge
        have hv1 :
            nodeValue ({ add_child m i j with
              roads := symmSet m.roads a b f } : MapState Loc) p =
            nodeValue m p := nodeValue_add_child m i j p
        have hv2 :
            nodeValue ({ add_child m i j with
              roads := symmSet m.roads a b f } : MapState Loc) c =
            nodeValue m c := nodeValue_add_child m i j c
        have hroads :
            ({ add_child m i j with
              roads := symmSet m.roads a b f } : MapState Loc).roads =
            symmSet m.roads a b f := rfl
        rcases treeEdge_add_child_cases m i j p c hedge2 with hold | ⟨rfl, rfl⟩
        · rw [hroads, hv1, hv2]
          exact symmGet_symmSet_isSome m.roads a b _ _ f (hef p c hold)
        · rw [hroads, hv1, hv2, (hc a p hi).2, (hc b c hj).2, symmGet_symmSet]
          rfl

theorem reachable_mapInvariant (m : MapState Loc) (h : Reachable m) :
    MapInvariant m := by
  induction h with
  | init root => exact mapInvariant_register _ root mapInvariant_empty
  | reg l hr ih => exact mapInvariant_register _ l ih
  | road a b f hr ih => exact mapInvariant_add_road _ a b f ih

theorem sharedLen_self (l : List Nat) : sharedLen l l = l.length := by
  induction l with
  | nil => rfl
  | cons a as ih => simp [sharedLen, ih]

theorem pathToRoot_cons (m : MapState Loc) (fuel i : Nat) :
    ∃ t, pathToRoot m fuel i = i :: t := by
  cases fuel with
  | zero => exact ⟨[], rfl⟩
  | succ n =>
    cases hp : nodeParent m i with
    | none => exact ⟨[], by simp [pathToRoot, hp]⟩
    | some p => exact ⟨pathToRoot m n p, by simp [pathToRoot, hp]⟩

theorem find_route_self (m : MapState Loc) (i : Nat) :
    find_route m i i = .ok [i] := by
  obtain ⟨t, ht⟩ := pathToRoot_cons m m.nodes.length i
  rw [find_route]
  simp only [ht]
  rw [if_neg (by simp)]
  rw [sharedLen_self, List.length_reverse]
  simp [Nat.sub_self]

/-- C5: on every reachable map, route finding from a registered location X
to itself yields the single-element route [X], and the fare on [X] is 0. -/
theorem C5_self_route (m : MapState Loc) (X : Loc) (hreach : Reachable m)
    (hreg : registered m X = true) :
    map_find_route m X X = .ok [X] ∧ get_fare_on_route m [X] = .ok 0 := by
  rw [registered] at hreg
  rcases Option.isSome_iff_exists.mp hreg with ⟨i, hi⟩
  have hv := ((reachable_mapInvariant m hreach).1 X i hi).2
  constructor
  · simp [map_find_route, hi, find_route_self, hv]
  · rfl

theorem C5_witness :
    map_find_route mapReg01 1 1 = .ok [1] ∧
      get_fare_on_route mapReg01 [1] = .ok 0 :=
  C5_self_route mapReg01 1 (Reachable.reg 1 (Reachable.init 0)) (by decide)

theorem registered_register_self (m : MapState Loc) (l : Loc) :
    registered (register_location m l) l = true := by
  by_cases hp : (lookupLoc m l).isSome = true
  · rw [register_of_present m l hp, registered]
    exact hp
  · have hn : lookupLoc m l = none := Option.not_isSome_iff_eq_none.mp hp
    rw [registered, lookupLoc_register_absent_notfound m l l hn hn]
    simp

/-- C6: on every reachable map, registering a location twice is the same as
registering it once (the second call is a no-op on the whole Map state),
and afterwards exactly one registry entry — one tree node — carries it. -/
theorem C6_register_idempotent (m : MapState Loc) (L : Loc)
    (hreach : Reachable m) :
    register_location (register_location m L) L = register_location m L ∧
      countLoc (register_location m L) L = 1 := by
  constructor
  · exact register_of_present (register_location m L) L
      (registered_register_self m L)
  · have hu := (reachable_mapInvariant m hreach).2.1
    cases hf : lookupLoc m L with
    | some i =>
      rw [register_of_present m L (by rw [hf]; rfl)]
      rw [lookupLoc] at hf
      cases hff : m.locations.find? (fun p => decide (p.1 = L)) with
      | none => rw [hff] at hf; simp at hf
      | some e =>
        have hmem : e ∈ m.locations := List.mem_of_find?_eq_some hff
        have hpe := @List.find?_some _ (fun p => decide (p.1 = L)) e
          m.locations hff
        have hmf : e ∈ m.locations.filter (fun p => decide (p.1 = L)) :=
          List.mem_filter.mpr ⟨hmem, hpe⟩
        have hpos :
            0 < (m.locations.filter (fun p => decide (p.1 = L))).length :=
          List.length_pos.mpr (fun hnil => by rw [hnil] at hmf; simp at hmf)
        have hle := hu L
        rw [countLoc] at hle ⊢
        omega
    | none =>
      have h0 : m.locations.filter (fun p => decide (p.1 = L)) = [] := by
        rw [List.filter_eq_nil_iff]
        intro e he
        have := List.find?_eq_none.mp
          (find?_locs_none_of_lookup_none m L hf) e he
        simpa using this
      rw [countLoc, register_absent_locations m L hf, List.filter_append, h0,
        List.length_append]
      simp [List.filter]

theorem C6_witness :
    register_location (register_location mapReg01 1) 1 =
        register_location mapReg01 1 ∧
      countLoc (register_location mapReg01 1) 1 = 1 :=
  C6_register_idempotent mapReg01 1 (Reachable.reg 1 (Reachable.init 0))

/-- C7: every map reachable by the construction API satisfies the spec's
Map invariant — both endpoints of every stored road are registered, and
every parent-child tree edge has a fare entry in the road registry. -/
theorem C7_road_tree_invariant (m : MapState Loc) (h : Reachable m) :
    RoadEndpointsRegistered m ∧ EdgesHaveFares m :=
  ⟨(reachable_mapInvariant m h).2.2.2.1, (reachable_mapInvariant m h).2.2.2.2⟩

theorem C7_witness :
    RoadEndpointsRegistered mapRoad01 ∧ EdgesHaveFares mapRoad01 :=
  C7_road_tree_invariant mapRoad01
    (Reachable.road 0 1 5 (Reachable.reg 1 (Reachable.init 0)))

end Yatry
